import Mathlib

/-!
Verification of the HTTP load-generation engine of this repository.

The definitions below are a shallow embedding of `backend/load_runner.py`
(class `HTTPLoadRunner`), the `/test/start`, `/test/<id>/status` and
`/test/<id>/stop` handlers of `backend/app.py`, and the registry operations
`get_test_status` / `stop_test` of `backend/jmeter_runner.py`.

Python floats are modelled as rationals (`ℚ`), wall-clock instants as
milliseconds/seconds over `ℕ`/`ℚ`, and Python dicts either as Lean functions
with a default value (mirroring `dict.get(k, default)`) or as
insertion-ordered association lists where identity and ordering matter.
-/

namespace LoadTest

/-- One entry of `self.timeseries` (load_runner.py, `tick_task`, lines 156-160). -/
structure TsEntry where
  second : ℕ
  requestsPerSecond : ℕ
  avgResponseTime : ℚ
deriving DecidableEq

/-- The aggregator state of `HTTPLoadRunner` (load_runner.py, `__init__`,
lines 38-47).  `codes`, `perSecondCount` and `perSecondRtSum` model the
Python dicts through their `.get(key, default)` views. -/
structure AggState where
  total : ℕ
  passed : ℕ
  failed : ℕ
  latencies : List ℚ
  codes : String → ℕ
  errors : List (ℕ × ℕ × String)
  samples : List (ℕ × ℕ × Bool × ℚ)
  timeseries : List TsEntry
  perSecondCount : ℕ → ℕ
  perSecondRtSum : ℕ → ℚ

/-- The aggregator state right after `__init__` (load_runner.py, lines 38-47). -/
def initState : AggState :=
  { total := 0, passed := 0, failed := 0, latencies := []
    codes := fun _ => 0, errors := [], samples := [], timeseries := []
    perSecondCount := fun _ => 0, perSecondRtSum := fun _ => 0 }

/-- Outcome of the `session.request` call inside `_send_one`
(load_runner.py, lines 73-84): either a response with a status code and a
body, or a raised transport exception with its text. -/
inductive Outcome where
  | resp (status : ℕ) (body : String)
  | exn (msg : String)
deriving DecidableEq

/-- The `status` local after the try/except of `_send_one`
(load_runner.py, lines 70-84): the response status, or 0 on exception. -/
def statusOf : Outcome → ℕ
  | .resp s _ => s
  | .exn _ => 0

/-- The `ok` local after the try/except of `_send_one`
(load_runner.py, lines 71-84): `200 <= status < 400` on a response,
`False` on exception. -/
def okOf : Outcome → Bool
  | .resp s _ => decide (200 ≤ s ∧ s < 400)
  | .exn _ => false

/-- The `resp_text_preview` local of `_send_one` (load_runner.py,
lines 72-84): the body truncated to 4096 characters, or `str(e)`. -/
def previewOf : Outcome → String
  | .resp _ body => if body.length > 4096 then body.take 4096 else body
  | .exn m => m

/-- The aggregation part of `_send_one` (load_runner.py, lines 86-115):
given the wall-clock start timestamp `tsMs` (line 68, captured before the
request is issued), the request outcome and the measured latency
`elapsedMs`, update every aggregator field exactly as lines 89-115 do. -/
def recordSample (st : AggState) (tsMs : ℕ) (o : Outcome) (elapsedMs : ℚ) :
    AggState :=
  let status := statusOf o
  let ok := okOf o
  let preview := previewOf o
  let secBucket := tsMs / 1000
  { total := st.total + 1
    passed := if ok then st.passed + 1 else st.passed
    failed := if ok then st.failed else st.failed + 1
    latencies := st.latencies ++ [elapsedMs]
    codes := fun k => if k = toString status then st.codes k + 1 else st.codes k
    errors :=
      if ok then st.errors
      else if st.errors.length < 200 then st.errors ++ [(tsMs, status, preview)]
      else st.errors
    samples :=
      if st.samples.length < 500 then st.samples ++ [(tsMs, status, ok, elapsedMs)]
      else st.samples
    timeseries := st.timeseries
    perSecondCount := fun s =>
      if s = secBucket then st.perSecondCount s + 1 else st.perSecondCount s
    perSecondRtSum := fun s =>
      if s = secBucket then st.perSecondRtSum s + elapsedMs else st.perSecondRtSum s }

/-- One firing of the background ticker `tick_task` (load_runner.py,
lines 148-160) at wall-clock second `nowSec = int(time.time())`: it reads
the bucket of the current second and appends a timeseries entry. -/
def tickStep (st : AggState) (nowSec : ℕ) : AggState :=
  let cnt := st.perSecondCount nowSec
  let rtAvg := if 0 < cnt then st.perSecondRtSum nowSec / (cnt : ℚ) else 0
  { st with timeseries := st.timeseries ++ [⟨nowSec, cnt, rtAvg⟩] }

/-- Events mutating the aggregator during a run: a completed sample
(`_send_one`, lines 86-115) or a ticker firing (`tick_task`,
lines 148-160).  Sample and tick coroutines interleave on one event loop,
so a run is a linear sequence of these events. -/
inductive Ev where
  | sample (tsMs : ℕ) (o : Outcome) (elapsedMs : ℚ)
  | tick (nowSec : ℕ)

/-- Apply one event to the aggregator state. -/
def stepEv (st : AggState) : Ev → AggState
  | .sample t o e => recordSample st t o e
  | .tick s => tickStep st s

/-- Run a whole event trace from a given aggregator state. -/
def runTrace (st : AggState) : List Ev → AggState
  | [] => st
  | e :: tr => runTrace (stepEv st e) tr

/-- The `sorted(self.latencies)` list of `_finalize` (load_runner.py,
line 244). -/
def sortedLatencies (st : AggState) : List ℚ :=
  st.latencies.insertionSort (· ≤ ·)

/-- Python `int(0.95 * (n - 1))` at line 245: for `n ≥ 1` the argument is
non-negative, so truncation is the floor. -/
def p95Index (n : ℕ) : ℕ :=
  (Int.floor ((19 / 20 : ℚ) * ((n : ℚ) - 1))).toNat

/-- Python `max(iterable, default=d)` over a list (load_runner.py,
line 258). -/
def maxOrDefault (l : List ℚ) (d : ℚ) : ℚ :=
  match l with
  | [] => d
  | x :: xs => xs.foldl max x

/-- The final summary dict built by `_finalize` (load_runner.py,
lines 251-266). -/
structure Summary where
  totalRequests : ℕ
  successfulRequests : ℕ
  failedRequests : ℕ
  successRate : ℚ
  avgResponseTime : ℚ
  percentile95 : ℚ
  peakRPS : ℚ
  requestsPerSecond : ℚ
  duration : ℚ
  codes : String → ℕ
  errors : List (ℕ × ℕ × String)
  samples : List (ℕ × ℕ × Bool × ℚ)
  timeseries : List TsEntry

/-- `_finalize(start_ts)` (load_runner.py, lines 243-266), with
`elapsed = time.time() - start_ts` passed in as a parameter. -/
def finalize (st : AggState) (elapsed : ℚ) : Summary :=
  let lat := sortedLatencies st
  let p95 := if lat = [] then 0 else lat.getD (p95Index lat.length) 0
  let avg :=
    if st.latencies = [] then 0
    else st.latencies.sum / (st.latencies.length : ℚ)
  let duration := max (1 / 1000 : ℚ) elapsed
  let achievedTps := if st.total = 0 then 0 else (st.total : ℚ) / duration
  { totalRequests := st.total
    successfulRequests := st.passed
    failedRequests := st.failed
    successRate := if st.total = 0 then 0 else (st.passed : ℚ) / (st.total : ℚ) * 100
    avgResponseTime := avg
    percentile95 := p95
    peakRPS :=
      maxOrDefault (st.timeseries.map fun t => (t.requestsPerSecond : ℚ)) achievedTps
    requestsPerSecond := achievedTps
    duration := duration
    codes := st.codes
    errors := st.errors
    samples := st.samples
    timeseries := st.timeseries }

/-- The `current_tps` computation of `schedule_by_duration`
(load_runner.py, lines 179-183), with `elapsed = time.time() - start`. -/
def currentTps (targetTps : ℚ) (rampUp : ℕ) (elapsed : ℚ) : ℚ :=
  if 0 < rampUp ∧ elapsed < (rampUp : ℚ) then targetTps * (elapsed / (rampUp : ℚ))
  else targetTps

/-- The `interval` computation of `schedule_by_duration`
(load_runner.py, line 185). -/
def durationInterval (targetTps : ℚ) (rampUp : ℕ) (elapsed : ℚ) : ℚ :=
  if currentTps targetTps rampUp elapsed ≤ 0 then 0
  else 1 / currentTps targetTps rampUp elapsed

/-- The `interval` computation of `schedule_by_iterations`
(load_runner.py, line 207): no ramp-up is consulted. -/
def iterationInterval (targetTps : ℚ) : ℚ :=
  if targetTps ≤ 0 then 0 else 1 / targetTps

/-- The pacing-sleep step of both schedulers (load_runner.py,
lines 192-199 and 210-216): when `interval > 0`, advance `next_at` and
sleep `max(0, next_at - time.perf_counter())`; otherwise leave `next_at`
alone and perform no pacing sleep (the `else` branch only yields with
`sleep(0)`).  Returns the new `next_at` and the sleep delay. -/
def paceSleep (nextAt interval nowPerf : ℚ) : ℚ × ℚ :=
  if 0 < interval then (nextAt + interval, max 0 (nextAt + interval - nowPerf))
  else (nextAt, 0)

/-- The JSON body of a `POST /test/start` request, restricted to the
fields the handler `start_test` (app.py, lines 546-649) reads.  `hasBody`
is false when `request.get_json()` returned nothing; each `Option` field
is `none` when the key is absent from the JSON object.  `bodyIsMapping`
records whether the `body` value is a JSON object. -/
structure StartRequest where
  hasBody : Bool
  type : Option String
  url : Option String
  users : Option Int
  duration : Option Int
  method : Option String
  loopCount : Option Int
  rampUp : Option Int
  bodyType : Option String
  bodyIsMapping : Bool
  authType : Option String
  authUsername : Option String
  authPassword : Option String
deriving DecidableEq

/-- Result of the `start_test` handler: a 400 rejection with a message, or
acceptance (the handler proceeds to build a config and launch a runner,
returning success). -/
inductive StartOutcome where
  | rejected (msg : String)
  | accepted (testType : String)
deriving DecidableEq

/-- The validation performed by `start_test` (app.py, lines 550-567)
before a test is accepted: reject a missing JSON body, then reject the
first missing field among `type`, `url`, `users`, `duration`; every other
request is accepted (the HTTP-Test branch, lines 601-649, starts the
runner and returns success unconditionally). -/
def startTest (r : StartRequest) : StartOutcome :=
  if r.hasBody = false then .rejected "No test configuration provided"
  else if r.type = none then .rejected "Missing required field: type"
  else if r.url = none then .rejected "Missing required field: url"
  else if r.users = none then .rejected "Missing required field: users"
  else if r.duration = none then .rejected "Missing required field: duration"
  else .accepted (r.type.getD "Load Test")

/-- A Python dict of header names to values, as an insertion-ordered
association list. -/
abbrev Headers := List (String × String)

/-- Python `k in d` for a headers dict. -/
def dictContains (h : Headers) (k : String) : Bool :=
  h.any fun p => p.1 = k

/-- Python `d.setdefault(k, v)`: insert `(k, v)` at the end iff `k` is
absent. -/
def setdefault (h : Headers) (k v : String) : Headers :=
  if dictContains h k then h else h ++ [(k, v)]

/-- The slice of `self.config` that the request-building prologue of
`_send_one` (load_runner.py, lines 50-66) reads: `headers` is `none` when
the key is absent or holds `None`, and `hasBody` states that `body` is not
`None`. -/
structure RunConfig where
  headers : Option Headers
  method : String
  hasBody : Bool
  bodyType : Option String
deriving DecidableEq

/-- Python `str.upper()`, character-wise (the configs at hand are
ASCII). -/
def upperString (s : String) : String :=
  ⟨s.data.map Char.toUpper⟩

/-- Python `str.lower()`, character-wise (the configs at hand are
ASCII). -/
def lowerString (s : String) : String :=
  ⟨s.data.map Char.toLower⟩

/-- Python `(self.config.get('method') or 'GET').upper()` (line 51). -/
def effectiveMethod (cfg : RunConfig) : String :=
  upperString (if cfg.method = "" then "GET" else cfg.method)

/-- Python `(self.config.get('bodyType') or 'raw').lower()` (line 55). -/
def effectiveBodyType (cfg : RunConfig) : String :=
  match cfg.bodyType with
  | none => "raw"
  | some s => if s = "" then "raw" else lowerString s

/-- The value of `self.config['headers']` after the request-building
prologue of `_send_one` (load_runner.py, lines 50-66).  The local
`headers = self.config.get('headers') or {}` (line 52) aliases the dict
stored in the config whenever that dict exists and is non-empty (an empty
dict is falsy, so `or {}` substitutes a fresh one); the subsequent
`headers.setdefault('Content-Type', 'application/json')` (line 62) then
writes through the alias into the config. -/
def sendOneConfigAfter (cfg : RunConfig) : RunConfig :=
  if effectiveMethod cfg ∈ ["POST", "PUT", "PATCH"] ∧ cfg.hasBody = true ∧
      effectiveBodyType cfg = "json" then
    match cfg.headers with
    | some h =>
        if h = [] then cfg
        else { cfg with headers := some (setdefault h "Content-Type" "application/json") }
    | none => cfg
  else cfg

/-- A registry record, reduced to the field the status/stop operations
branch on (jmeter_runner.py, `active_tests` values). -/
structure TestRecord where
  status : String
deriving DecidableEq

/-- The process-wide `active_tests` mapping, as an association list. -/
abbrev Registry := List (String × TestRecord)

/-- Python `self.active_tests[test_id]` lookup combined with the
membership test `test_id in self.active_tests`. -/
def regFind (reg : Registry) (id : String) : Option TestRecord :=
  (reg.find? fun p => p.1 = id).map Prod.snd

/-- Result of `get_test_status` (jmeter_runner.py, lines 1013-1035),
reduced to the error case and the reported status string. -/
inductive StatusResult where
  | notFound (err : String)
  | found (status : String)
deriving DecidableEq

/-- `get_test_status` (jmeter_runner.py, lines 1013-1035). -/
def get_test_status (reg : Registry) (id : String) : StatusResult :=
  match regFind reg id with
  | none => .notFound "Test not found"
  | some info => .found info.status

/-- Result dict of `stop_test` (jmeter_runner.py, lines 1037-1046). -/
structure StopResult where
  success : Bool
  message : String
deriving DecidableEq

/-- `stop_test` (jmeter_runner.py, lines 1037-1046): only a record in
status `running` can be stopped; otherwise `{success: False, error}`. -/
def stop_test (reg : Registry) (id : String) : StopResult :=
  match regFind reg id with
  | some info =>
      if info.status = "running" then ⟨true, "Test " ++ id ++ " stopped"⟩
      else ⟨false, "Test not found or not running"⟩
  | none => ⟨false, "Test not found or not running"⟩

/-- The registry write performed by `_run_http` (app.py, lines 628-635)
when the HTTP-Test thread finishes: `active_tests[test_id] = {...,
'status': 'completed', ...}` (Python dict assignment: replace the entry if
present, else append). -/
def finishHttpTest (reg : Registry) (id : String) : Registry :=
  if (reg.find? fun p => p.1 = id).isSome then
    reg.map fun p => if p.1 = id then (id, ⟨"completed"⟩) else p
  else reg ++ [(id, ⟨"completed"⟩)]

/-- Semaphore/in-flight state of one running test: `inFlight` counts
launches admitted by `sem.acquire()` whose sample has not yet been
recorded and permit not yet released; `available` is the semaphore value. -/
structure SemState where
  inFlight : ℕ
  available : ℕ
deriving DecidableEq

/-- Initial state: `sem = asyncio.Semaphore(max_concurrency)`
(load_runner.py, line 143), nothing in flight. -/
def semInit (maxConcurrency : ℕ) : SemState :=
  ⟨0, maxConcurrency⟩

/-- The two ways the schedulers and request tasks touch the semaphore:
`launch` is `await sem.acquire()` immediately followed by
`create_task(self._task_wrapper(...))` (load_runner.py, lines 188-189 and
208-209), possible only when a permit is available; `record` is the
completion of `_send_one` inside `_task_wrapper`, whose `finally` block
releases the permit (lines 237-241). -/
inductive SemStep : SemState → SemState → Prop
  | launch (i a : ℕ) : SemStep ⟨i, a + 1⟩ ⟨i + 1, a⟩
  | record (i a : ℕ) : SemStep ⟨i + 1, a⟩ ⟨i, a + 1⟩

/-- States reachable during a test run with concurrency cap
`maxConcurrency`. -/
def SemReachable (maxConcurrency : ℕ) (s : SemState) : Prop :=
  Relation.ReflTransGen SemStep (semInit maxConcurrency) s

/-- The seconds at which the ticker fired along a trace.  Successive
firings of `tick_task` are separated by `asyncio.sleep(1)` (load_runner.py,
line 150), so in any real run these seconds are strictly increasing — in
particular pairwise distinct. -/
def tickSecs : List Ev → List ℕ
  | [] => []
  | .tick s :: tr => s :: tickSecs tr
  | .sample _ _ _ :: tr => tickSecs tr

/-- Sum of the `requestsPerSecond` entries of a timeseries. -/
def tsSum (l : List TsEntry) : ℕ :=
  (l.map fun t => t.requestsPerSecond).sum

/-- A start request carrying every violation listed by the spec's
validation rules — `users = 0 < 1`, both `duration` and `loopCount` set,
`rampUp > duration`, a URL with no supported scheme, a method outside the
allowed set, `bodyType = form` with a non-mapping body, and basic auth
with no password — while still containing the four required keys. -/
def badRequest : StartRequest :=
  { hasBody := true, type := some "HTTP Test", url := some "not a url"
    users := some 0, duration := some 10, method := some "BREW"
    loopCount := some 5, rampUp := some 99, bodyType := some "form"
    bodyIsMapping := false, authType := some "basic"
    authUsername := some "u", authPassword := none }

/-- A config on which `_send_one` takes the json-body branch with a
non-empty headers dict lacking `Content-Type`. -/
def mutatingConfig : RunConfig :=
  { headers := some [("X-Api-Key", "k")], method := "POST"
    hasBody := true, bodyType := some "json" }

/-- A concrete aggregator state with two requests (one passed, one
failed), one latency and a non-empty timeseries, used to instantiate the
final-summary theorem. -/
def sampleAggState : AggState :=
  { total := 2, passed := 1, failed := 1, latencies := [5]
    codes := fun _ => 0, errors := [], samples := []
    timeseries := [⟨7, 3, 0⟩]
    perSecondCount := fun _ => 0, perSecondRtSum := fun _ => 0 }

section ProjectionLemmas

lemma recordSample_total (st : AggState) (t : ℕ) (o : Outcome) (e : ℚ) :
    (recordSample st t o e).total = st.total + 1 := rfl

lemma recordSample_timeseries (st : AggState) (t : ℕ) (o : Outcome) (e : ℚ) :
    (recordSample st t o e).timeseries = st.timeseries := rfl

lemma recordSample_perSecondCount (st : AggState) (t : ℕ) (o : Outcome) (e : ℚ)
    (s : ℕ) :
    (recordSample st t o e).perSecondCount s =
      if s = t / 1000 then st.perSecondCount s + 1 else st.perSecondCount s := rfl

lemma tickStep_total (st : AggState) (s : ℕ) : (tickStep st s).total = st.total := rfl

lemma tickStep_perSecondCount (st : AggState) (s : ℕ) :
    (tickStep st s).perSecondCount = st.perSecondCount := rfl

lemma tickStep_timeseries (st : AggState) (s : ℕ) :
    (tickStep st s).timeseries =
      st.timeseries ++
        [⟨s, st.perSecondCount s,
          if 0 < st.perSecondCount s then st.perSecondRtSum s / (st.perSecondCount s : ℚ)
          else 0⟩] := rfl

end ProjectionLemmas

lemma stepEv_counters (st : AggState) (e : Ev)
    (h : st.passed + st.failed = st.total) :
    (stepEv st e).passed + (stepEv st e).failed = (stepEv st e).total := by
  cases e with
  | sample t o el =>
    simp only [stepEv, recordSample]
    cases hok : okOf o <;> simp [hok] <;> omega
  | tick s => simpa [stepEv, tickStep] using h

lemma counters_invariant (tr : List Ev) :
    ∀ st : AggState, st.passed + st.failed = st.total →
      (runTrace st tr).passed + (runTrace st tr).failed = (runTrace st tr).total := by
  induction tr with
  | nil => intro st h; exact h
  | cons e tr ih => intro st h; exact ih (stepEv st e) (stepEv_counters st e h)

/-- C2: after every completed sample is recorded — hence after any
interleaving of sample and ticker events starting from the fresh
aggregator — the counters satisfy `passed + failed = total`, and the final
summary produced by `_finalize` satisfies
`totalRequests = successfulRequests + failedRequests`. -/
theorem C2_passed_failed_total (tr : List Ev) :
    (runTrace initState tr).passed + (runTrace initState tr).failed =
      (runTrace initState tr).total ∧
    ∀ elapsed : ℚ,
      (finalize (runTrace initState tr) elapsed).totalRequests =
        (finalize (runTrace initState tr) elapsed).successfulRequests +
          (finalize (runTrace initState tr) elapsed).failedRequests := by
  have h := counters_invariant tr initState rfl
  exact ⟨h, fun _ => h.symm⟩

lemma semStep_sum {s t : SemState} (h : SemStep s t) :
    t.inFlight + t.available = s.inFlight + s.available := by
  cases h <;> simp <;> omega

lemma semReachable_sum {maxC : ℕ} {s : SemState} (h : SemReachable maxC s) :
    s.inFlight + s.available = maxC := by
  induction h with
  | refl => simp [semInit]
  | tail _ hstep ih => rw [semStep_sum hstep]; exact ih

/-- C3: in every state reachable by the semaphore discipline of the
schedulers (acquire one permit of a semaphore of capacity
`max_concurrency` before each launch, release it only when the sample has
been recorded), the number of in-flight requests is at most
`max_concurrency`. -/
theorem C3_in_flight_le_max_concurrency (maxC : ℕ) (s : SemState)
    (h : SemReachable maxC s) : s.inFlight ≤ maxC := by
  have hsum := semReachable_sum h
  omega

/-- Witness for C3: with capacity 2, the state after one admitted launch
is reachable and its in-flight count is bounded by 2. -/
theorem C3_witness : SemReachable 2 ⟨1, 1⟩ ∧ (1 : ℕ) ≤ 2 := by
  have hreach : SemReachable 2 ⟨1, 1⟩ :=
    Relation.ReflTransGen.single (SemStep.launch 0 1)
  exact ⟨hreach, C3_in_flight_le_max_concurrency 2 ⟨1, 1⟩ hreach⟩

/-- C6: every invocation of the request executor `_send_one` records
exactly one sample (incrementing `total` by exactly one — the embedding is
a total function, the Python code catches every exception of the HTTP
call); the outcome is classified ok exactly when `200 <= status < 400`;
and a transport failure yields `status = 0`, `ok = false` with the error
text as the message. -/
theorem C6_executor_classification (st : AggState) (tsMs : ℕ) (o : Outcome)
    (e : ℚ) :
    (recordSample st tsMs o e).total = st.total + 1 ∧
    (okOf o = true ↔ 200 ≤ statusOf o ∧ statusOf o < 400) ∧
    (st.samples.length < 500 →
      (recordSample st tsMs o e).samples =
        st.samples ++ [(tsMs, statusOf o, okOf o, e)]) ∧
    ∀ msg, o = .exn msg →
      statusOf o = 0 ∧ okOf o = false ∧ previewOf o = msg := by
  refine ⟨rfl, ?_, ?_, ?_⟩
  · cases o with
    | resp s b => simp [okOf, statusOf]
    | exn m => simp [okOf, statusOf]
  · intro h
    simp [recordSample, h]
  · rintro msg rfl
    exact ⟨rfl, rfl, rfl⟩

/-- Witness for C6: a transport failure ("connection reset") on the fresh
aggregator yields one recorded sample with status 0 and the error text as
message. -/
theorem C6_witness :
    (recordSample initState 0 (Outcome.exn "connection reset") 1).total = 1 ∧
    statusOf (Outcome.exn "connection reset") = 0 ∧
    okOf (Outcome.exn "connection reset") = false ∧
    previewOf (Outcome.exn "connection reset") = "connection reset" ∧
    (recordSample initState 0 (Outcome.exn "connection reset") 1).samples =
      [(0, 0, false, 1)] := by
  obtain ⟨h1, h2, h3, h4⟩ :=
    C6_executor_classification initState 0 (Outcome.exn "connection reset") 1
  obtain ⟨e1, e2, e3⟩ := h4 "connection reset" rfl
  refine ⟨h1, e1, e2, e3, ?_⟩
  have hs := h3 (by decide)
  simpa [initState, e1, e2] using hs

/-- C7: in duration mode the effective launch rate at elapsed time `e` is
`target_tps * (e / ramp_up)` while `ramp_up > 0` and `e < ramp_up`, and
`target_tps` otherwise; when the effective rate is `≤ 0` the interval is 0
and the pacing step performs no sleep and leaves `next_at` untouched (the
scheduler only yields, so launches are limited by the semaphore alone);
when the rate is positive the interval is its reciprocal; iteration-mode
spacing is `1/target_tps` (0 when `target_tps ≤ 0`) and never consults the
ramp-up: it coincides with duration-mode spacing at ramp-up 0 for every
elapsed time. -/
theorem C7_effective_rate (t : ℚ) (r : ℕ) (e : ℚ) :
    (0 < r → e < (r : ℚ) → currentTps t r e = t * (e / (r : ℚ))) ∧
    (¬(0 < r ∧ e < (r : ℚ)) → currentTps t r e = t) ∧
    (currentTps t r e ≤ 0 →
      durationInterval t r e = 0 ∧
      ∀ nextAt nowPerf : ℚ,
        paceSleep nextAt (durationInterval t r e) nowPerf = (nextAt, 0)) ∧
    (0 < currentTps t r e →
      durationInterval t r e = 1 / currentTps t r e) ∧
    (t ≤ 0 → iterationInterval t = 0) ∧
    (0 < t → iterationInterval t = 1 / t) ∧
    iterationInterval t = durationInterval t 0 e := by
  refine ⟨?_, ?_, ?_, ?_, ?_, ?_, ?_⟩
  · intro h1 h2
    simp [currentTps, h1, h2]
  · intro h
    simp only [currentTps, if_neg h]
  · intro h
    have hd : durationInterval t r e = 0 := by simp [durationInterval, h]
    refine ⟨hd, fun nextAt nowPerf => ?_⟩
    rw [hd]
    simp [paceSleep]
  · intro h
    simp [durationInterval, not_le.mpr h]
  · intro h
    simp [iterationInterval, h]
  · intro h
    simp [iterationInterval, not_le.mpr h]
  · have hz : currentTps t 0 e = t := by simp [currentTps]
    simp [iterationInterval, durationInterval, hz]

/-- Witness for C7: target 10 TPS with 4 s ramp-up gives rate 5 and
interval 1/5 at elapsed 2 s, rate 10 after the ramp; target 0 gives
interval 0 and no pacing sleep; iteration mode gives spacing 1/10 for
target 10 and 0 for target 0. -/
theorem C7_witness :
    currentTps 10 4 2 = 5 ∧ durationInterval 10 4 2 = 1 / 5 ∧
    currentTps 10 4 6 = 10 ∧
    durationInterval 0 0 1 = 0 ∧ paceSleep 7 (durationInterval 0 0 1) 9 = (7, 0) ∧
    iterationInterval 10 = 1 / 10 ∧ iterationInterval 0 = 0 := by
  obtain ⟨h1, -, -, h4, -, h6, -⟩ := C7_effective_rate 10 4 2
  obtain ⟨-, h2, -, -, -, -, -⟩ := C7_effective_rate 10 4 6
  obtain ⟨-, h2z, h3z, -, h5z, -, -⟩ := C7_effective_rate 0 0 1
  have hc : currentTps 10 4 2 = 5 := by
    rw [h1 (by norm_num) (by norm_num)]
    norm_num
  have hz : currentTps 0 0 1 ≤ 0 :=
    le_of_eq (h2z (by norm_num))
  obtain ⟨hd0, hps⟩ := h3z hz
  refine ⟨hc, ?_, h2 (by norm_num), hd0, hps 7 9, h6 (by norm_num), h5z le_rfl⟩
  rw [h4 (by rw [hc]; norm_num), hc]

/-- C4 fails on the code: `_send_one` captures `ts_ms` at line 68 of
load_runner.py, before the request is issued, and buckets by
`ts_ms // 1000` (line 104).  A sample started at 500 ms whose request took
1000 ms completes at 1500 ms, i.e. in second `(500 + 1000) / 1000 = 1`,
yet the code increments the bucket of second 0 and leaves the bucket of
second 1 untouched. -/
theorem C4_counterexample :
    (recordSample initState 500 (Outcome.resp 200 "") 1000).perSecondCount 1 = 0 ∧
    (recordSample initState 500 (Outcome.resp 200 "") 1000).perSecondCount 0 = 1 ∧
    (500 + 1000) / 1000 = 1 := by
  refine ⟨?_, ?_, by norm_num⟩ <;>
    simp [recordSample_perSecondCount, initState]

/-- C4 amended: the per-second bucket key used to update `count[sec]`
equals the floor, in seconds, of the sample's START timestamp (captured
just before the request is issued), every other bucket being left
unchanged; and a tick executed at wall-clock second `s` appends the bucket
of second `s` itself — the still-open current second — so it reflects the
samples recorded so far whose start timestamp fell in `[s, s+1)`. -/
theorem C4_amended_bucket_key (st : AggState) (tsMs : ℕ) (o : Outcome) (e : ℚ)
    (s : ℕ) :
    (recordSample st tsMs o e).perSecondCount s =
      (if s = tsMs / 1000 then st.perSecondCount s + 1 else st.perSecondCount s) ∧
    (tickStep st s).timeseries =
      st.timeseries ++
        [⟨s, st.perSecondCount s,
          if 0 < st.perSecondCount s then
            st.perSecondRtSum s / (st.perSecondCount s : ℚ)
          else 0⟩] :=
  ⟨recordSample_perSecondCount st tsMs o e s, tickStep_timeseries st s⟩

/-- C5 fails on the code: a sample recorded during second 0 followed by
the first ticker firing at second 1 (the ticker first fires one second
after the run starts, and reads only the bucket of the second in which it
fires) yields a timeseries whose `requestsPerSecond` entries sum to 0
while `totalRequests = 1`. -/
theorem C5_counterexample :
    ¬ (tsSum (runTrace initState
          [Ev.sample 0 (Outcome.resp 200 "") 1, Ev.tick 1]).timeseries =
        (runTrace initState
          [Ev.sample 0 (Outcome.resp 200 "") 1, Ev.tick 1]).total) := by
  decide

lemma sum_map_bump_eq (l : List ℕ) (f : ℕ → ℕ) (b : ℕ) :
    (l.map fun s => if s = b then f s + 1 else f s).sum =
      (l.map f).sum + l.count b := by
  induction l with
  | nil => rfl
  | cons a l ih =>
    simp only [List.map_cons, List.sum_cons, ih, List.count_cons]
    by_cases h : a = b <;> simp [h] <;> omega

lemma tsSum_append (l₁ l₂ : List TsEntry) :
    tsSum (l₁ ++ l₂) = tsSum l₁ + tsSum l₂ := by
  simp [tsSum]

lemma tsSum_le_total_aux (tr : List Ev) :
    ∀ st : AggState, (tickSecs tr).Nodup →
      tsSum st.timeseries + ((tickSecs tr).map st.perSecondCount).sum ≤ st.total →
      tsSum (runTrace st tr).timeseries ≤ (runTrace st tr).total := by
  induction tr with
  | nil =>
    intro st _ hinv
    simpa using Nat.le_trans (Nat.le_add_right _ _) hinv
  | cons e tr ih =>
    intro st hnd hinv
    cases e with
    | sample t o el =>
      refine ih (recordSample st t o el) ?_ ?_
      · simpa [tickSecs] using hnd
      · have hbump :
            ((tickSecs tr).map
              (recordSample st t o el).perSecondCount).sum ≤
              ((tickSecs tr).map st.perSecondCount).sum + 1 := by
          have heq :
              ((tickSecs tr).map (recordSample st t o el).perSecondCount) =
                ((tickSecs tr).map fun s =>
                  if s = t / 1000 then st.perSecondCount s + 1
                  else st.perSecondCount s) := by
            simp [recordSample_perSecondCount]
          rw [heq, sum_map_bump_eq]
          have hcount : (tickSecs tr).count (t / 1000) ≤ 1 :=
            List.nodup_iff_count_le_one.mp (by simpa [tickSecs] using hnd) _
          omega
        have hts : tsSum (recordSample st t o el).timeseries = tsSum st.timeseries := by
          rw [recordSample_timeseries]
        have htot : (recordSample st t o el).total = st.total + 1 :=
          recordSample_total st t o el
        have hold : tsSum st.timeseries + ((tickSecs (Ev.sample t o el :: tr)).map
            st.perSecondCount).sum ≤ st.total := hinv
        simp only [tickSecs] at hold
        rw [hts, htot]
        omega
    | tick s =>
      refine ih (tickStep st s) ?_ ?_
      · exact (List.nodup_cons.mp (by simpa [tickSecs] using hnd)).2
      · have hts : tsSum (tickStep st s).timeseries =
            tsSum st.timeseries + st.perSecondCount s := by
          rw [tickStep_timeseries, tsSum_append]
          simp [tsSum]
        have hold : tsSum st.timeseries +
            (st.perSecondCount s + ((tickSecs tr).map st.perSecondCount).sum) ≤
              st.total := by
          simpa [tickSecs] using hinv
        rw [hts, tickStep_total, tickStep_perSecondCount]
        omega

/-- C5 amended: over any run in which the ticker fires at pairwise
distinct seconds (ensured in the code by the one-second sleep between
firings), the sum of the `requestsPerSecond` entries of the final
timeseries is at most `totalRequests`.  Equality fails in general — see
the counterexample — because each tick reads the still-open current
second, so samples recorded after their bucket's tick (and buckets never
ticked at all, such as the first partial second) are missing from the
timeseries. -/
theorem C5_amended_tsSum_le_total (tr : List Ev) (h : (tickSecs tr).Nodup) :
    tsSum (runTrace initState tr).timeseries ≤ (runTrace initState tr).total := by
  refine tsSum_le_total_aux tr initState h ?_
  have hz : ((tickSecs tr).map initState.perSecondCount).sum = 0 := by
    have : (tickSecs tr).map initState.perSecondCount =
        (tickSecs tr).map fun _ => 0 := rfl
    rw [this]
    simp
  simp [initState, tsSum, hz]

/-- Witness for C5 (amended): on the counterexample trace the tick seconds
are distinct and the timeseries sum 0 is at most the total 1. -/
theorem C5_witness :
    (tickSecs [Ev.sample 0 (Outcome.resp 200 "") 1, Ev.tick 1]).Nodup ∧
    tsSum (runTrace initState
        [Ev.sample 0 (Outcome.resp 200 "") 1, Ev.tick 1]).timeseries ≤
      (runTrace initState
        [Ev.sample 0 (Outcome.resp 200 "") 1, Ev.tick 1]).total := by
  have hnd : (tickSecs [Ev.sample 0 (Outcome.resp 200 "") 1, Ev.tick 1]).Nodup := by
    simp [tickSecs]
  exact ⟨hnd, C5_amended_tsSum_le_total _ hnd⟩

lemma foldl_max_mem (x : ℚ) (l : List ℚ) : l.foldl max x ∈ x :: l := by
  induction l generalizing x with
  | nil => simp
  | cons a l ih =>
    have h := ih (max x a)
    simp only [List.foldl_cons]
    rcases List.mem_cons.mp h with h | h
    · rcases max_choice x a with hc | hc
      · rw [h, hc]
        exact List.mem_cons_self _ _
      · rw [h, hc]
        exact List.mem_cons_of_mem _ (List.mem_cons_self _ _)
    · exact List.mem_cons_of_mem _ (List.mem_cons_of_mem _ h)

lemma le_foldl_max (x : ℚ) (l : List ℚ) : ∀ y ∈ x :: l, y ≤ l.foldl max x := by
  induction l generalizing x with
  | nil =>
    intro y hy
    simp only [List.mem_singleton] at hy
    simp [hy]
  | cons a l ih =>
    intro y hy
    simp only [List.foldl_cons]
    rcases List.mem_cons.mp hy with rfl | hy
    · exact le_trans (le_max_left y a) (ih (max y a) _ (List.mem_cons_self _ _))
    · rcases List.mem_cons.mp hy with rfl | hy
      · exact le_trans (le_max_right x y) (ih (max x y) _ (List.mem_cons_self _ _))
      · exact ih (max x a) y (List.mem_cons_of_mem _ hy)

lemma maxOrDefault_mem (l : List ℚ) (d : ℚ) (h : l ≠ []) : maxOrDefault l d ∈ l := by
  cases l with
  | nil => exact absurd rfl h
  | cons x xs => exact foldl_max_mem x xs

lemma maxOrDefault_ub (l : List ℚ) (d : ℚ) : ∀ y ∈ l, y ≤ maxOrDefault l d := by
  cases l with
  | nil => intro y hy; cases hy
  | cons x xs => exact le_foldl_max x xs

lemma p95Index_spec (n : ℕ) :
    (Int.floor ((95 / 100 : ℚ) * ((n : ℚ) - 1))).toNat = p95Index n := by
  norm_num [p95Index]

lemma finalize_peakRPS (st : AggState) (elapsed : ℚ) :
    (finalize st elapsed).peakRPS =
      maxOrDefault (st.timeseries.map fun t => (t.requestsPerSecond : ℚ))
        (finalize st elapsed).requestsPerSecond := rfl

/-- C1: `_finalize` satisfies the spec formulas — `duration` is
`max(0.001, now - started_at)`; `avgResponseTime` is the mean latency (0
when there are none); `percentile95` is the entry of the sorted latency
list (sorted: a `≤`-ordered permutation of the recorded latencies) at
index `floor(0.95 * (n - 1))` (0 when empty); `requestsPerSecond` is
`total / duration`; `peakRPS` is the maximum `requestsPerSecond` of the
timeseries, defaulting to the achieved TPS when the timeseries is empty;
`successRate` is `passed / total * 100`, or 0 when `total = 0`. -/
theorem C1_final_summary (st : AggState) (elapsed : ℚ) :
    (finalize st elapsed).duration = max (1 / 1000) elapsed ∧
    (finalize st elapsed).avgResponseTime =
      (if st.latencies = [] then 0
       else st.latencies.sum / (st.latencies.length : ℚ)) ∧
    (sortedLatencies st).Sorted (· ≤ ·) ∧
    (sortedLatencies st).Perm st.latencies ∧
    (finalize st elapsed).percentile95 =
      (if st.latencies = [] then 0
       else (sortedLatencies st).getD
         ((Int.floor ((95 / 100 : ℚ) * ((st.latencies.length : ℚ) - 1))).toNat) 0) ∧
    (finalize st elapsed).requestsPerSecond =
      (st.total : ℚ) / (finalize st elapsed).duration ∧
    (st.timeseries = [] →
      (finalize st elapsed).peakRPS = (finalize st elapsed).requestsPerSecond) ∧
    (st.timeseries ≠ [] →
      (finalize st elapsed).peakRPS ∈
          st.timeseries.map (fun t => (t.requestsPerSecond : ℚ)) ∧
        ∀ x ∈ st.timeseries.map (fun t => (t.requestsPerSecond : ℚ)),
          x ≤ (finalize st elapsed).peakRPS) ∧
    (finalize st elapsed).successRate =
      (if st.total = 0 then 0 else (st.passed : ℚ) / (st.total : ℚ) * 100) := by
  have hperm : (sortedLatencies st).Perm st.latencies := List.perm_insertionSort _ _
  have hlen : (sortedLatencies st).length = st.latencies.length := hperm.length_eq
  refine ⟨rfl, rfl, List.sorted_insertionSort _ _, hperm, ?_, ?_, ?_, ?_, rfl⟩
  · by_cases hl : st.latencies = []
    · have hs : sortedLatencies st = [] := by
        simp [sortedLatencies, hl]
      simp [finalize, hs, hl]
    · have hs : sortedLatencies st ≠ [] := by
        intro h0
        rw [h0] at hperm
        exact hl hperm.symm.eq_nil
      simp only [finalize]
      rw [if_neg hs, if_neg hl, hlen, p95Index_spec]
  · by_cases ht : st.total = 0
    · simp [finalize, ht]
    · simp [finalize, ht]
  · intro hts
    simp [finalize, hts, maxOrDefault]
  · intro hts
    have hmap : st.timeseries.map (fun t => (t.requestsPerSecond : ℚ)) ≠ [] := by
      simpa using hts
    rw [finalize_peakRPS]
    exact ⟨maxOrDefault_mem _ _ hmap, maxOrDefault_ub _ _⟩

/-- Witness for C1: on a state with two requests (one passed), one latency
of 5 ms and a timeseries `[{second 7, rps 3}]`, finalizing after 2 s gives
duration 2, mean latency 5, p95 = 5, achieved TPS 1, a peak taken from the
timeseries and bounded below by its entry 3, and success rate 50. -/
theorem C1_witness :
    (finalize sampleAggState 2).duration = 2 ∧
    (finalize sampleAggState 2).avgResponseTime = 5 ∧
    (finalize sampleAggState 2).percentile95 = 5 ∧
    (finalize sampleAggState 2).requestsPerSecond = 1 ∧
    (finalize sampleAggState 2).peakRPS ∈
      sampleAggState.timeseries.map (fun t => (t.requestsPerSecond : ℚ)) ∧
    (3 : ℚ) ≤ (finalize sampleAggState 2).peakRPS ∧
    (finalize sampleAggState 2).successRate = 50 := by
  obtain ⟨h1, h2, -, -, h5, h6, -, h8, h9⟩ := C1_final_summary sampleAggState 2
  have hne : sampleAggState.timeseries ≠ [] := by decide
  obtain ⟨hmem, hub⟩ := h8 hne
  refine ⟨?_, ?_, ?_, ?_, hmem, ?_, ?_⟩
  · rw [h1]
    norm_num
  · rw [h2]
    norm_num [sampleAggState]
  · rw [h5]
    norm_num [sampleAggState, sortedLatencies]
  · rw [h6, h1]
    norm_num [sampleAggState]
  · exact hub 3 (by decide)
  · rw [h9]
    norm_num [sampleAggState]

/-- C8 fails on the code: `start_test` (app.py, lines 546-649) only
rejects a request with no JSON body or with one of `type`, `url`, `users`,
`duration` missing.  `badRequest` violates every rule the claim lists —
`users = 0 < 1`, both `duration` and `loopCount` set, `rampUp = 99 >
duration = 10`, a URL that does not parse with a supported scheme, a
method outside the allowed set, `bodyType = form` with a non-mapping body,
and basic auth without a password — yet it is accepted and a runner is
started. -/
theorem C8_counterexample :
    startTest badRequest = StartOutcome.accepted "HTTP Test" ∧
    badRequest.users = some 0 ∧
    badRequest.duration = some 10 ∧ badRequest.loopCount = some 5 ∧
    badRequest.rampUp = some 99 ∧
    badRequest.method = some "BREW" ∧
    badRequest.bodyType = some "form" ∧ badRequest.bodyIsMapping = false ∧
    badRequest.authType = some "basic" ∧ badRequest.authPassword = none := by
  decide

/-- C8 amended: `start_test` rejects a configuration, before accepting it,
exactly when the request has no JSON body or one of the four required keys
`type`, `url`, `users`, `duration` is absent; no further validation (user
count ≥ 1, duration/loop-count exclusivity, ramp-up ≤ duration, URL
scheme, method set, form-body shape, basic-auth credentials) is performed
before a runner is started. -/
theorem C8_amended_validation (r : StartRequest) :
    (∃ msg, startTest r = StartOutcome.rejected msg) ↔
      (r.hasBody = false ∨ r.type = none ∨ r.url = none ∨ r.users = none ∨
        r.duration = none) := by
  constructor
  · rintro ⟨msg, hmsg⟩
    unfold startTest at hmsg
    split_ifs at hmsg with h1 h2 h3 h4 h5
    · exact Or.inl h1
    · exact Or.inr (Or.inl h2)
    · exact Or.inr (Or.inr (Or.inl h3))
    · exact Or.inr (Or.inr (Or.inr (Or.inl h4)))
    · exact Or.inr (Or.inr (Or.inr (Or.inr h5)))
  · intro h
    unfold startTest
    split_ifs with h1 h2 h3 h4 h5
    · exact ⟨_, rfl⟩
    · exact ⟨_, rfl⟩
    · exact ⟨_, rfl⟩
    · exact ⟨_, rfl⟩
    · exact ⟨_, rfl⟩
    · rcases h with h | h | h | h | h <;> simp_all

/-- C9 is right and the code violates it: on a config with a POST json
body and a non-empty headers dict lacking `Content-Type`, the
`headers.setdefault('Content-Type', 'application/json')` of `_send_one`
(load_runner.py, line 62) writes through the alias of line 52 into
`self.config['headers']`, so the config after building the request differs
from the config at start — while e.g. the bearer-auth path of `_runner`
(line 133) copies the dict before mutating, showing the intended
discipline.  With a raw body type the config is untouched. -/
theorem C9_code_bug_config_mutation :
    sendOneConfigAfter mutatingConfig ≠ mutatingConfig ∧
    sendOneConfigAfter mutatingConfig =
      { mutatingConfig with
          headers := some [("X-Api-Key", "k"), ("Content-Type", "application/json")] } ∧
    sendOneConfigAfter { mutatingConfig with bodyType := some "raw" } =
      { mutatingConfig with bodyType := some "raw" } := by
  refine ⟨?_, rfl, rfl⟩
  decide

lemma find?_append_none {α : Type} (p : α → Bool) (l₁ l₂ : List α)
    (h : l₁.find? p = none) : (l₁ ++ l₂).find? p = l₂.find? p := by
  induction l₁ with
  | nil => simp
  | cons a l ih =>
    rw [List.cons_append]
    by_cases hpa : p a = true
    · rw [List.find?_cons_of_pos _ hpa] at h
      cases h
    · rw [List.find?_cons_of_neg _ hpa] at h
      rw [List.find?_cons_of_neg _ hpa]
      exact ih h

/-- C10: for a test of type `HTTP Test`, `_run_http` (app.py, lines
628-641) writes the registry record only when the runner thread finishes,
and writes it with status `completed`.  While the record is absent (the
whole time the test is running) `get_test_status` answers the not-found
error object and `stop_test` answers `{success: false}`; once the record
exists its status is `completed`, never `running`, so `stop_test` still
answers `{success: false}` — such a test can never be observed running nor
stopped through the control API. -/
theorem C10_http_test_invisible_until_completed (reg : Registry) (id : String)
    (h : regFind reg id = none) :
    get_test_status reg id = StatusResult.notFound "Test not found" ∧
    stop_test reg id = ⟨false, "Test not found or not running"⟩ ∧
    regFind (finishHttpTest reg id) id = some ⟨"completed"⟩ ∧
    get_test_status (finishHttpTest reg id) id = StatusResult.found "completed" ∧
    (stop_test (finishHttpTest reg id) id).success = false := by
  have hf : reg.find? (fun p => p.1 = id) = none := by
    unfold regFind at h
    exact Option.map_eq_none'.mp h
  have hfin : finishHttpTest reg id = reg ++ [(id, ⟨"completed"⟩)] := by
    simp [finishHttpTest, hf]
  have hrf : regFind (finishHttpTest reg id) id = some ⟨"completed"⟩ := by
    rw [hfin]
    unfold regFind
    rw [find?_append_none _ _ _ hf]
    simp
  refine ⟨?_, ?_, hrf, ?_, ?_⟩
  · unfold get_test_status
    rw [h]
  · unfold stop_test
    rw [h]
  · unfold get_test_status
    rw [hrf]
  · unfold stop_test
    rw [hrf]
    simp

/-- Witness for C10: with an empty registry — the state for the whole time
the HTTP-Test thread is running — the status query answers not-found and
stop fails; the record created at thread exit reports `completed` and
still cannot be stopped. -/
theorem C10_witness :
    get_test_status [] "test_1" = StatusResult.notFound "Test not found" ∧
    stop_test [] "test_1" = ⟨false, "Test not found or not running"⟩ ∧
    get_test_status (finishHttpTest [] "test_1") "test_1" =
      StatusResult.found "completed" ∧
    (stop_test (finishHttpTest [] "test_1") "test_1").success = false := by
  obtain ⟨h1, h2, -, h4, h5⟩ :=
    C10_http_test_invisible_until_completed [] "test_1" rfl
  exact ⟨h1, h2, h4, h5⟩

end LoadTest
